import Mathlib

/-!
Shallow embedding of `src/main.rs` of SRQemu, a QEMU VM manager CLI.

The program keeps an in-memory map from VM names to VM records, persisted
via confy, and shells out to qemu-img / qemu-system-x86_64 / pkill / pgrep /
kill.  Interactive prompts (the CLI front-end) are modelled as explicit
parameters, per the spec's component boundary: every operation receives the
already-trimmed strings the user would type.  External-world outcomes
(whether a command could be spawned, its captured output, whether files
exist, whether removals succeed, the home directory) are modelled as an
environment record `Env`; the externally visible actions an operation takes
are returned as a list of `Effect`s, in program order.  Panics
(`expect` / fatal aborts) are modelled with `Except Abort`.
-/

/-- One VM record (source: `struct VMInfo`, main.rs lines 15-23). -/
structure VMInfo where
  name : String
  memory : String
  cpu : String
  threads : String
  disk : String
  iso : String
  deriving DecidableEq, Repr

/-- The record store (source: `struct VMConfig { vms: HashMap<String, VMInfo> }`).
The `HashMap` is modelled as a function from keys to optional values, which is
exactly its lookup semantics (unique keys, last write wins). -/
structure VMConfig where
  vms : String → Option VMInfo

/-- Externally visible actions, in program order.  `warn` records an
`eprintln!` of a failure message. -/
inductive Effect where
  | createDirAll (path : String)
  | runQemuImg (path size : String)
  | spawnShell (cmd : String)
  | runPkill (pat : String)
  | runPgrep (pat : String)
  | runKill (pid : String)
  | removeFile (path : String)
  | removeDirAll (path : String)
  | saveConfig
  | warn (msg : String)
  deriving DecidableEq, Repr

/-- A fatal abort of the whole program (a Rust panic via `expect`).
`persistFailed` is `save_config`'s `.expect("Failed to save config")`;
`mkdirFailed` is `fs::create_dir_all(..).expect(..)` in `get_vm_folder`
and `create_vm`. -/
inductive Abort where
  | persistFailed
  | mkdirFailed (path : String)
  deriving DecidableEq, Repr

/-- The external world, fixed for one operation.
`pkillStatus` / `qemuImgStatus` model Rust `Command::status()`: `.ok c`
means the child was spawned and exited with code `c`; `.error ()` means the
command itself could not be invoked.  `pgrepOutput` models
`Command::output()`: `.ok lines` is the list of stdout lines of a spawned
pgrep; `.error ()` means pgrep could not be invoked. -/
structure Env where
  home : Option String
  mkdirOk : String → Bool
  saveOk : Bool
  qemuImgStatus : Except Unit Int
  pkillStatus : Except Unit Int
  pgrepOutput : Except Unit (List String)
  shSpawnOk : Bool
  fileExists : String → Bool
  dirExists : String → Bool
  removeFileOk : String → Bool
  removeDirOk : String → Bool

/-- `s.replacen(pat, to, n)` on character lists, with an explicit structural
fuel (the wrapper passes `s.length`, which is always enough because every
step consumes at least one character).  Matches Rust `str::replacen` for the
nonempty patterns used in the source (the one call site uses `"~"`). -/
def replacenAux (pat rep : List Char) : Nat → List Char → Nat → List Char
  | 0, s, _ => s
  | _ + 1, [], _ => []
  | _ + 1, s, 0 => s
  | fuel + 1, c :: rest, n + 1 =>
    if !pat.isEmpty && pat.isPrefixOf (c :: rest) then
      rep ++ replacenAux pat rep fuel ((c :: rest).drop pat.length) n
    else
      c :: replacenAux pat rep fuel rest (n + 1)

/-- Rust `s.replacen(pat, to, n)`: replace the first `n` non-overlapping
occurrences of `pat` in `s` by `to`. -/
def replacen (s pat rep : String) (n : Nat) : String :=
  ⟨replacenAux pat.data rep.data s.data.length s.data n⟩

/-- Rust `path.starts_with("~")`: the first character is `'~'`. -/
def startsWithTilde (s : String) : Bool :=
  match s.data with
  | [] => false
  | c :: _ => c == '~'

/-- Source `expand_path` (main.rs lines 35-42): if the path starts with `~`
and the home directory is known, replace the first occurrence of `~` by it;
otherwise return the path unchanged. -/
def expand_path (home : Option String) (path : String) : String :=
  if startsWithTilde path then
    match home with
    | some h => replacen path "~" h 1
    | none => path
  else path

/-- Source `save_config` (main.rs lines 31-33): persist, aborting the whole
program on failure. -/
def save_config (env : Env) : Except Abort (List Effect) :=
  if env.saveOk then Except.ok [Effect.saveConfig]
  else Except.error Abort.persistFailed

/-- Source `get_vm_folder` (main.rs lines 44-48): expand `~/vms`, create it
(aborting the program if creation fails), return it. -/
def get_vm_folder (env : Env) : Except Abort (String × List Effect) :=
  let base_dir := expand_path env.home "~/vms"
  if env.mkdirOk base_dir then Except.ok (base_dir, [Effect.createDirAll base_dir])
  else Except.error (Abort.mkdirFailed base_dir)

/-- Rust `input.trim().to_lowercase()` for the ASCII answers used here. -/
def toLowerStr (s : String) : String :=
  ⟨s.data.map Char.toLower⟩

/-- The shell line `create_vm` builds for the first boot (with ISO and boot
order), main.rs lines 123-132. -/
def launch_cmd_iso (vm : VMInfo) (display_flag : String) : String :=
  "setsid qemu-system-x86_64 -name " ++ vm.name ++ " -m " ++ vm.memory
    ++ " -cpu " ++ vm.cpu ++ " -smp " ++ vm.threads
    ++ " -enable-kvm -drive file=" ++ vm.disk ++ ",format=qcow2 -cdrom "
    ++ vm.iso ++ " -boot order=d " ++ display_flag ++ " > /dev/null 2>&1 &"

/-- The shell line `start_vm_common` builds (no ISO), main.rs lines 144-152. -/
def launch_cmd (vm : VMInfo) (display_flag : String) : String :=
  "setsid qemu-system-x86_64 -name " ++ vm.name ++ " -m " ++ vm.memory
    ++ " -cpu " ++ vm.cpu ++ " -smp " ++ vm.threads
    ++ " -enable-kvm -drive file=" ++ vm.disk ++ ",format=qcow2 "
    ++ display_flag ++ " > /dev/null 2>&1 &"

/-- The pkill/pgrep pattern both `stop_vm` and `delete_vm` build. -/
def stopPattern (name : String) : String :=
  "qemu-system-x86_64 -name " ++ name

/-- The already-trimmed answers the user gives to `create_vm`'s prompts. -/
structure CreateInput where
  name : String
  memoryIn : String
  diskSizeIn : String
  threadsIn : String
  isoIn : String
  modeIn : String
  deriving DecidableEq, Repr

/-- Source `create_vm` (main.rs lines 53-139).  Resolves the per-VM
directory and disk path, runs `qemu-img create` discarding its result
(`let _ = ...status()`), inserts the record, persists, and — only when the
expanded ISO path is nonempty — spawns the hypervisor via `sh -c`. -/
def create_vm (env : Env) (cfg : VMConfig) (inp : CreateInput) :
    Except Abort (VMConfig × List Effect) :=
  match get_vm_folder env with
  | Except.error a => Except.error a
  | Except.ok (base, folderEffs) =>
    let vm_dir := expand_path env.home (base ++ "/" ++ inp.name)
    if env.mkdirOk vm_dir then
      let disk_path := expand_path env.home (vm_dir ++ "/" ++ inp.name ++ ".qcow2")
      let memory := if inp.memoryIn = "" then "4G" else inp.memoryIn
      let disk_size := if inp.diskSizeIn = "" then "10G" else inp.diskSizeIn
      let threads := if inp.threadsIn = "" then "1" else inp.threadsIn
      let iso := expand_path env.home inp.isoIn
      let _img : Except Unit Int := env.qemuImgStatus
      let vm : VMInfo := ⟨inp.name, memory, "host", threads, disk_path, iso⟩
      let cfg' : VMConfig := ⟨fun k => if k = inp.name then some vm else cfg.vms k⟩
      match save_config env with
      | Except.error a => Except.error a
      | Except.ok saveEffs =>
        let launchEffs : List Effect :=
          if vm.iso ≠ "" then
            let mode := toLowerStr inp.modeIn
            let display_flag := if mode = "headless" then "-display none" else ""
            Effect.spawnShell (launch_cmd_iso vm display_flag) ::
              (if env.shSpawnOk then [] else [Effect.warn ("Failed to start VM " ++ vm.name)])
          else []
        Except.ok (cfg',
          folderEffs ++ Effect.createDirAll vm_dir
            :: Effect.runQemuImg disk_path disk_size :: (saveEffs ++ launchEffs))
    else Except.error (Abort.mkdirFailed vm_dir)

/-- Result of `start_vm`. -/
inductive OpResult where
  | ok
  | notFound
  deriving DecidableEq, Repr

/-- Source `start_vm_common` (main.rs lines 141-158). -/
def start_vm_common (env : Env) (vm : VMInfo) (headless : Bool) : List Effect :=
  let display_flag := if headless then "-display none" else ""
  Effect.spawnShell (launch_cmd vm display_flag) ::
    (if env.shSpawnOk then [] else [Effect.warn ("Failed to start VM " ++ vm.name)])

/-- Source `start_vm` (main.rs lines 167-187).  Takes the store by shared
reference; it is returned unchanged to make store preservation explicit. -/
def start_vm (env : Env) (cfg : VMConfig) (name modeIn : String) :
    OpResult × VMConfig × List Effect :=
  match cfg.vms name with
  | some vm => (OpResult.ok, cfg, start_vm_common env vm (toLowerStr modeIn = "headless"))
  | none => (OpResult.notFound, cfg, [])

/-- Result of `stop_vm`.  `stopped` is the branch that prints
`VM '..' stopped.` (pkill was spawned, exit status ignored); `forceKilled`
is the fallback that force-kills each PID pgrep printed; `fallbackFailed`
is the silent case where neither pkill nor pgrep could be invoked. -/
inductive StopResult where
  | notFound
  | stopped
  | forceKilled (pids : List String)
  | fallbackFailed
  deriving DecidableEq, Repr

/-- Source `stop_vm` (main.rs lines 189-231).  Tries `pkill -f <pattern>`
first; only when that invocation itself errs (spawn failure, not a nonzero
exit) does it fall back to `pgrep -f <pattern>` and `kill -9` each PID. -/
def stop_vm (env : Env) (cfg : VMConfig) (name : String) : StopResult × List Effect :=
  if (cfg.vms name).isSome then
    let pat := stopPattern name
    match env.pkillStatus with
    | Except.ok _ => (StopResult.stopped, [Effect.runPkill pat])
    | Except.error _ =>
      match env.pgrepOutput with
      | Except.ok pids =>
        (StopResult.forceKilled pids,
          Effect.runPkill pat :: Effect.runPgrep pat :: pids.map Effect.runKill)
      | Except.error _ =>
        (StopResult.fallbackFailed, [Effect.runPkill pat, Effect.runPgrep pat])
  else (StopResult.notFound, [])

/-- Result of `delete_vm`: `deleted inner` carries the result of the inner
`stop_vm` call when it was made (`none` when pgrep could not be spawned). -/
inductive DeleteResult where
  | notFound
  | deleted (inner : Option StopResult)
  deriving DecidableEq, Repr

/-- Source `delete_vm` (main.rs lines 233-275).  `config.vms.remove(name)`
removes the record from the in-memory store first; then, whenever
`pgrep -f <pattern>` can be spawned at all (`if let Ok(_) = ..output()`,
output not inspected), calls `stop_vm` — which re-prompts for a name,
modelled by `iname`.  Then removes the disk file if present, the VM folder
if present (failures reported, not blocking), and persists. -/
def delete_vm (env : Env) (cfg : VMConfig) (name iname : String) :
    Except Abort (DeleteResult × VMConfig × List Effect) :=
  match cfg.vms name with
  | none => Except.ok (DeleteResult.notFound, cfg, [])
  | some vm =>
    let cfg' : VMConfig := ⟨fun k => if k = name then none else cfg.vms k⟩
    let pat := stopPattern name
    let stopPart : Option StopResult × List Effect :=
      match env.pgrepOutput with
      | Except.ok _ =>
        let s := stop_vm env cfg' iname
        (some s.1, Effect.runPgrep pat :: s.2)
      | Except.error _ => (none, [Effect.runPgrep pat])
    let diskP := expand_path env.home vm.disk
    let diskEffs : List Effect :=
      if env.fileExists diskP then
        Effect.removeFile diskP ::
          (if env.removeFileOk diskP then [] else [Effect.warn "Failed to delete disk file"])
      else []
    match get_vm_folder env with
    | Except.error a => Except.error a
    | Except.ok (base, folderEffs) =>
      let vm_dir := expand_path env.home (base ++ "/" ++ name)
      let dirEffs : List Effect :=
        if env.dirExists vm_dir then
          Effect.removeDirAll vm_dir ::
            (if env.removeDirOk vm_dir then [] else [Effect.warn "Failed to delete VM folder"])
        else []
      match save_config env with
      | Except.error a => Except.error a
      | Except.ok saveEffs =>
        Except.ok (DeleteResult.deleted stopPart.1, cfg',
          stopPart.2 ++ diskEffs ++ folderEffs ++ dirEffs ++ saveEffs)

/-- Effects that send a termination signal to a process. -/
def sendsKillSignal : Effect → Bool
  | Effect.runPkill _ => true
  | Effect.runKill _ => true
  | _ => false
/-! ### Derived closed forms (proved equal to the operations below) -/

/-- The per-VM directory `create_vm` and `delete_vm` compute for `name`. -/
def vmDirOf (env : Env) (name : String) : String :=
  expand_path env.home (expand_path env.home "~/vms" ++ "/" ++ name)

/-- The record `create_vm` builds and inserts. -/
def mkVM (env : Env) (inp : CreateInput) : VMInfo :=
  ⟨inp.name,
   if inp.memoryIn = "" then "4G" else inp.memoryIn,
   "host",
   if inp.threadsIn = "" then "1" else inp.threadsIn,
   expand_path env.home (vmDirOf env inp.name ++ "/" ++ inp.name ++ ".qcow2"),
   expand_path env.home inp.isoIn⟩

/-- The launch effects of `create_vm` (nonempty only when the ISO is set). -/
def createLaunchEffs (env : Env) (inp : CreateInput) : List Effect :=
  if expand_path env.home inp.isoIn ≠ "" then
    Effect.spawnShell (launch_cmd_iso (mkVM env inp)
        (if toLowerStr inp.modeIn = "headless" then "-display none" else "")) ::
      (if env.shSpawnOk then [] else [Effect.warn ("Failed to start VM " ++ inp.name)])
  else []

/-- The full effect list of a successful `create_vm`. -/
def createEffs (env : Env) (inp : CreateInput) : List Effect :=
  Effect.createDirAll (expand_path env.home "~/vms")
    :: Effect.createDirAll (vmDirOf env inp.name)
    :: Effect.runQemuImg (mkVM env inp).disk (if inp.diskSizeIn = "" then "10G" else inp.diskSizeIn)
    :: Effect.saveConfig
    :: createLaunchEffs env inp

/-- The store after removing `name` (Rust `config.vms.remove(name)`). -/
def removedCfg (cfg : VMConfig) (name : String) : VMConfig :=
  ⟨fun k => if k = name then none else cfg.vms k⟩

/-- The inner stop result `delete_vm` records: present iff pgrep spawned. -/
def deleteInnerRes (env : Env) (cfg' : VMConfig) (iname : String) : Option StopResult :=
  match env.pgrepOutput with
  | Except.ok _ => some (stop_vm env cfg' iname).1
  | Except.error _ => none

/-- The full effect list of a successful `delete_vm` on an existing name. -/
def deleteEffs (env : Env) (cfg' : VMConfig) (vm : VMInfo) (name iname : String) : List Effect :=
  (match env.pgrepOutput with
   | Except.ok _ => Effect.runPgrep (stopPattern name) :: (stop_vm env cfg' iname).2
   | Except.error _ => [Effect.runPgrep (stopPattern name)])
  ++ ((if env.fileExists (expand_path env.home vm.disk) then
        Effect.removeFile (expand_path env.home vm.disk) ::
          (if env.removeFileOk (expand_path env.home vm.disk) then []
           else [Effect.warn "Failed to delete disk file"])
      else [])
  ++ (Effect.createDirAll (expand_path env.home "~/vms")
  :: ((if env.dirExists (vmDirOf env name) then
        Effect.removeDirAll (vmDirOf env name) ::
          (if env.removeDirOk (vmDirOf env name) then []
           else [Effect.warn "Failed to delete VM folder"])
      else [])
  ++ [Effect.saveConfig])))
/-! ### Concrete data used by witnesses and counterexamples -/

/-- A benign environment: home is `/home/u`, every external step succeeds,
pgrep prints nothing, no files or directories exist. -/
def envOK : Env :=
  { home := some "/home/u", mkdirOk := fun _ => true, saveOk := true,
    qemuImgStatus := Except.ok 0, pkillStatus := Except.ok 0,
    pgrepOutput := Except.ok [], shSpawnOk := true,
    fileExists := fun _ => false, dirExists := fun _ => false,
    removeFileOk := fun _ => true, removeDirOk := fun _ => true }

/-- `envOK`, but pgrep reports a live matching process with PID 1234. -/
def envAlive : Env := { envOK with pgrepOutput := Except.ok ["1234"] }

/-- `envOK`, but directory creation fails. -/
def envBadMkdir : Env := { envOK with mkdirOk := fun _ => false }

/-- `envOK`, but persisting the store fails. -/
def envBadSave : Env := { envOK with saveOk := false }

/-- `envOK`, but the pkill command cannot be invoked. -/
def envNoPkill : Env := { envOK with pkillStatus := Except.error () }

def cfgEmpty : VMConfig := ⟨fun _ => none⟩

def vmRec1 : VMInfo := ⟨"vm1", "2G", "host", "2", "/home/u/vms/vm1/vm1.qcow2", ""⟩

def cfgVm1 : VMConfig := ⟨fun k => if k = "vm1" then some vmRec1 else none⟩

def inp1 : CreateInput := ⟨"vm1", "2G", "5G", "2", "", ""⟩

def inpNoName : CreateInput := ⟨"", "2G", "5G", "2", "", ""⟩

/-! ### Helper lemmas about strings and `replacen` -/

theorem data_append (a b : String) : (a ++ b).data = a.data ++ b.data := rfl

theorem str_ext {a b : String} (h : a.data = b.data) : a = b :=
  congrArg String.mk h

/-- With replacement count 0, `replacenAux` returns its input. -/
theorem replacenAux_count_zero (pat rep : List Char) (fuel : Nat) (s : List Char) :
    replacenAux pat rep fuel s 0 = s := by
  cases fuel <;> cases s <;> rfl

/-- Evaluating `expand_path` when the home directory is unknown. -/
theorem expand_path_none (p : String) : expand_path none p = p := by
  unfold expand_path
  split <;> rfl

/-- Evaluating `expand_path` on a path that does not start with `~`. -/
theorem expand_path_not_tilde (home : Option String) (p : String)
    (h : startsWithTilde p = false) : expand_path home p = p := by
  unfold expand_path
  simp [h]

theorem startsWithTilde_eq_true (p : String) (t : List Char) (hp : p.data = '~' :: t) :
    startsWithTilde p = true := by
  unfold startsWithTilde
  rw [hp]
  simp

/-- Evaluating `expand_path` on a path starting with `~` when home is known:
exactly the leading `~` is replaced by the home directory. -/
theorem expand_path_tilde (hS : String) (p : String) (t : List Char)
    (hp : p.data = '~' :: t) :
    expand_path (some hS) p = ⟨hS.data ++ t⟩ := by
  unfold expand_path
  rw [startsWithTilde_eq_true p t hp]
  simp only [if_true]
  unfold replacen
  rw [hp]
  show String.mk (replacenAux ['~'] hS.data (t.length + 1) ('~' :: t) 1) = _
  simp [replacenAux, replacenAux_count_zero, List.isPrefixOf]
theorem swt_append_left (a b : String) (ha : a.data ≠ []) :
    startsWithTilde (a ++ b) = startsWithTilde a := by
  unfold startsWithTilde
  rw [data_append]
  cases hd : a.data with
  | nil => exact absurd hd ha
  | cons c t => simp [List.cons_append]

theorem swt_mk_cons (c : Char) (l : List Char) :
    startsWithTilde ⟨c :: l⟩ = (c == '~') := rfl

theorem swt_mk_append_false (h : String) (c : Char) (l : List Char)
    (hTil : startsWithTilde h = false) (hc : (c == '~') = false) :
    startsWithTilde ⟨h.data ++ c :: l⟩ = false := by
  unfold startsWithTilde at *
  cases hd : h.data with
  | nil => simpa using hc
  | cons x xs =>
    rw [hd] at hTil
    simpa using hTil

/-- `expand_path` leaves a home-prefixed path alone (its head is not `~`). -/
theorem expand_mk_append (hS : String) (c : Char) (l : List Char)
    (hTil : startsWithTilde hS = false) (hc : (c == '~') = false) :
    expand_path (some hS) ⟨hS.data ++ c :: l⟩ = ⟨hS.data ++ c :: l⟩ :=
  expand_path_not_tilde _ _ (swt_mk_append_false hS c l hTil hc)

/-- The per-VM directory the code computes (expand applied to
`get_vm_folder() ++ "/" ++ name`) equals the single expansion of the literal
`~/vms/<name>`, provided the home directory itself does not start with `~`. -/
theorem expand_dir_eq (home : Option String) (name : String)
    (hs : ∀ h, home = some h → startsWithTilde h = false) :
    expand_path home (expand_path home "~/vms" ++ "/" ++ name)
      = expand_path home ("~/vms/" ++ name) := by
  cases home with
  | none =>
    rw [expand_path_none, expand_path_none, expand_path_none]
    apply str_ext
    show ("~/vms".data ++ "/".data) ++ name.data = "~/vms/".data ++ name.data
    rfl
  | some h =>
    have hTil := hs h rfl
    have hbase : expand_path (some h) "~/vms" = ⟨h.data ++ "/vms".data⟩ :=
      expand_path_tilde h "~/vms" "/vms".data rfl
    have hin : expand_path (some h) "~/vms" ++ "/" ++ name
        = ⟨h.data ++ '/' :: ("vms/" ++ name).data⟩ := by
      rw [hbase]
      apply str_ext
      show ((h.data ++ "/vms".data) ++ "/".data) ++ name.data
        = h.data ++ '/' :: ("vms/".data ++ name.data)
      simp only [List.append_assoc]
      rfl
    rw [hin, expand_mk_append h '/' _ hTil (by decide)]
    have hp : ("~/vms/" ++ name).data = '~' :: ("/vms/" ++ name).data := rfl
    rw [expand_path_tilde h _ _ hp]
    apply str_ext
    show h.data ++ '/' :: ("vms/".data ++ name.data)
      = h.data ++ ("/vms/".data ++ name.data)
    rfl

/-- The disk path the code computes (three nested expansions) equals the
single expansion of the literal `~/vms/<name>/<name>.qcow2`, provided the
home directory itself does not start with `~`. -/
theorem expand_disk_eq (home : Option String) (name : String)
    (hs : ∀ h, home = some h → startsWithTilde h = false) :
    expand_path home
        (expand_path home (expand_path home "~/vms" ++ "/" ++ name)
          ++ "/" ++ name ++ ".qcow2")
      = expand_path home ("~/vms/" ++ name ++ "/" ++ name ++ ".qcow2") := by
  cases home with
  | none =>
    rw [expand_path_none, expand_path_none, expand_path_none, expand_path_none]
    apply str_ext
    simp only [data_append, List.append_assoc]
    all_goals rfl
  | some h =>
    have hTil := hs h rfl
    have hbase : expand_path (some h) "~/vms" = ⟨h.data ++ "/vms".data⟩ :=
      expand_path_tilde h "~/vms" "/vms".data rfl
    have hin : expand_path (some h) "~/vms" ++ "/" ++ name
        = ⟨h.data ++ '/' :: ("vms/" ++ name).data⟩ := by
      rw [hbase]
      apply str_ext
      simp only [data_append, List.append_assoc]
      all_goals rfl
    rw [hin, expand_mk_append h '/' _ hTil (by decide)]
    have hin2 : (⟨h.data ++ '/' :: ("vms/" ++ name).data⟩ : String) ++ "/" ++ name ++ ".qcow2"
        = ⟨h.data ++ '/' :: ("vms/" ++ name ++ "/" ++ name ++ ".qcow2").data⟩ := by
      apply str_ext
      simp only [data_append, List.append_assoc, List.cons_append]
    rw [hin2, expand_mk_append h '/' _ hTil (by decide)]
    have hp : ("~/vms/" ++ name ++ "/" ++ name ++ ".qcow2").data
        = '~' :: ("/vms/" ++ name ++ "/" ++ name ++ ".qcow2").data := by
      simp only [data_append, List.append_assoc]
      all_goals rfl
    rw [expand_path_tilde h _ _ hp]
    apply str_ext
    simp only [data_append, List.append_assoc]
    all_goals rfl
/-- Closed form of a successful `create_vm`: when both directory creations
succeed and persisting succeeds, the result is the store with `mkVM`
inserted at the (possibly overwritten) key `inp.name`, and `createEffs`. -/
theorem create_vm_eq (env : Env) (cfg : VMConfig) (inp : CreateInput)
    (hm : env.mkdirOk (expand_path env.home "~/vms") = true)
    (hm2 : env.mkdirOk (vmDirOf env inp.name) = true)
    (hsv : env.saveOk = true) :
    create_vm env cfg inp
      = Except.ok (⟨fun k => if k = inp.name then some (mkVM env inp) else cfg.vms k⟩,
          createEffs env inp) := by
  unfold vmDirOf at hm2
  simp only [create_vm, get_vm_folder, save_config, hm, hm2, hsv, if_true,
    createEffs, createLaunchEffs, mkVM, vmDirOf]
  simp [List.append_assoc]

/-- Closed form of a successful `delete_vm` on an existing name. -/
theorem delete_vm_eq (env : Env) (cfg : VMConfig) (name iname : String) (vm : VMInfo)
    (hvm : cfg.vms name = some vm)
    (hm : env.mkdirOk (expand_path env.home "~/vms") = true)
    (hsv : env.saveOk = true) :
    delete_vm env cfg name iname
      = Except.ok (DeleteResult.deleted (deleteInnerRes env (removedCfg cfg name) iname),
          removedCfg cfg name,
          deleteEffs env (removedCfg cfg name) vm name iname) := by
  simp only [delete_vm, get_vm_folder, save_config, hvm, hm, hsv, if_true,
    deleteInnerRes, deleteEffs, removedCfg]
  cases hpg : env.pgrepOutput with
  | ok out => simp [vmDirOf, List.append_assoc]
  | error e => simp [vmDirOf, List.append_assoc]
/-! ### The claims -/

/-- C8: `expand_path` replaces exactly the first occurrence of `~` (the
leading character) by the resolved home directory when the input begins
with `~` and the home directory is known; in every other case — in
particular when the home directory cannot be determined (`none`) — it
returns the input unchanged.  It is a total Lean function, so it can only
degrade, never throw. -/
theorem expand_path_first_tilde (home : Option String) (p : String) :
    expand_path home p =
      if startsWithTilde p then
        match home with
        | some h => String.mk (h.data ++ p.data.tail)
        | none => p
      else p := by
  by_cases hsw : startsWithTilde p = true
  · rw [if_pos hsw]
    cases home with
    | none => exact expand_path_none p
    | some h =>
      cases hd : p.data with
      | nil =>
        unfold startsWithTilde at hsw
        rw [hd] at hsw
        simp at hsw
      | cons c t =>
        have hc : c = '~' := by
          unfold startsWithTilde at hsw
          rw [hd] at hsw
          simpa using hsw
        subst hc
        rw [expand_path_tilde h p t hd]
        rfl
  · rw [if_neg hsw]
    exact expand_path_not_tilde home p (by simpa using hsw)

/-- C9: `start_vm` on a name not present in the store returns NotFound,
invokes no external process (empty effect list), and leaves the store
unchanged. -/
theorem start_not_found (env : Env) (cfg : VMConfig) (name modeIn : String)
    (h : cfg.vms name = none) :
    start_vm env cfg name modeIn = (OpResult.notFound, cfg, []) := by
  simp [start_vm, h]

theorem start_not_found_witness :
    cfgEmpty.vms "vm9" = none
    ∧ start_vm envOK cfgEmpty "vm9" "gui" = (OpResult.notFound, cfgEmpty, []) :=
  ⟨rfl, start_not_found envOK cfgEmpty "vm9" "gui" rfl⟩

/-- C2: for a name with an existing record, `stop_vm` attempts the polite
pkill-by-pattern termination first; it reports success exactly when that
invocation itself could be made — for every exit code, i.e. even when the
exit code says no process matched — and only when pkill could not be
invoked at all does it fall back to enumerating PIDs with pgrep and
force-killing each. -/
theorem stop_polite_path (env : Env) (cfg : VMConfig) (name : String)
    (h : (cfg.vms name).isSome = true) :
    ((stop_vm env cfg name).1 = StopResult.stopped ↔ ∃ c, env.pkillStatus = Except.ok c)
    ∧ (Effect.runPgrep (stopPattern name) ∈ (stop_vm env cfg name).2
        ↔ env.pkillStatus = Except.error ())
    ∧ (∀ pid, Effect.runKill pid ∈ (stop_vm env cfg name).2
        → env.pkillStatus = Except.error ())
    ∧ (∀ c, env.pkillStatus = Except.ok c →
        stop_vm env cfg name = (StopResult.stopped, [Effect.runPkill (stopPattern name)])) := by
  cases hp : env.pkillStatus with
  | ok c =>
    simp [stop_vm, h, hp]
  | error e =>
    cases e
    cases hg : env.pgrepOutput with
    | ok pids =>
      simp [stop_vm, h, hp, hg]
    | error e2 =>
      cases e2
      simp [stop_vm, h, hp, hg]

theorem stop_polite_path_witness :
    (cfgVm1.vms "vm1").isSome = true
    ∧ (((stop_vm envOK cfgVm1 "vm1").1 = StopResult.stopped
          ↔ ∃ c, envOK.pkillStatus = Except.ok c)
      ∧ (Effect.runPgrep (stopPattern "vm1") ∈ (stop_vm envOK cfgVm1 "vm1").2
          ↔ envOK.pkillStatus = Except.error ())
      ∧ (∀ pid, Effect.runKill pid ∈ (stop_vm envOK cfgVm1 "vm1").2
          → envOK.pkillStatus = Except.error ())
      ∧ (∀ c, envOK.pkillStatus = Except.ok c →
          stop_vm envOK cfgVm1 "vm1"
            = (StopResult.stopped, [Effect.runPkill (stopPattern "vm1")]))) :=
  ⟨rfl, stop_polite_path envOK cfgVm1 "vm1" rfl⟩
theorem expand_path_empty (home : Option String) : expand_path home "" = "" :=
  expand_path_not_tilde home "" rfl

/-- C4: create then get returns a record whose memory, threads and iso
fields equal the supplied parameters (the ISO modulo path expansion),
whose cpu field is "host", and whose disk field is the expanded path
`~/vms/<name>/<name>.qcow2`; when the supplied ISO is empty, no launch of
the external hypervisor occurs during create. -/
theorem create_then_get (env : Env) (cfg : VMConfig) (inp : CreateInput)
    (hm : env.mkdirOk (expand_path env.home "~/vms") = true)
    (hm2 : env.mkdirOk (vmDirOf env inp.name) = true)
    (hsv : env.saveOk = true)
    (hmem : inp.memoryIn ≠ "")
    (hthr : inp.threadsIn ≠ "")
    (hhome : ∀ h, env.home = some h → startsWithTilde h = false) :
    ∃ cfg1 effs1, create_vm env cfg inp = Except.ok (cfg1, effs1)
      ∧ cfg1.vms inp.name = some
          ⟨inp.name, inp.memoryIn, "host", inp.threadsIn,
            expand_path env.home ("~/vms/" ++ inp.name ++ "/" ++ inp.name ++ ".qcow2"),
            expand_path env.home inp.isoIn⟩
      ∧ (inp.isoIn = "" → ∀ c, Effect.spawnShell c ∉ effs1) := by
  refine ⟨_, _, create_vm_eq env cfg inp hm hm2 hsv, ?_, ?_⟩
  · simp only [mkVM, vmDirOf, if_pos rfl]
    rw [expand_disk_eq env.home inp.name hhome]
    simp [hmem, hthr]
  · intro hiso c
    simp [createEffs, createLaunchEffs, hiso, expand_path_empty]

theorem create_then_get_witness :
    ∃ cfg1 effs1, create_vm envOK cfgEmpty inp1 = Except.ok (cfg1, effs1)
      ∧ cfg1.vms "vm1" = some
          ⟨"vm1", "2G", "host", "2",
            expand_path envOK.home ("~/vms/" ++ "vm1" ++ "/" ++ "vm1" ++ ".qcow2"),
            expand_path envOK.home ""⟩
      ∧ ("" = "" → ∀ c, Effect.spawnShell c ∉ effs1) :=
  create_then_get envOK cfgEmpty inp1 rfl rfl rfl (by decide) (by decide)
    (by intro h hh; injection hh with hh2; rw [← hh2]; decide)

/-- C5: `create_vm` inserts the record and persists it regardless of the
outcome of the external disk-image-creation step: its entire result is
unchanged under any `qemu-img` status (the status is bound and discarded,
the Rust `let _ = ...status()`), and whenever creation succeeds the record
is present in the resulting store and a persist effect was emitted.  The
tool's failure output reaches the terminal through its own inherited
stderr, outside this program. -/
theorem create_ignores_img (env : Env) (cfg : VMConfig) (inp : CreateInput)
    (st1 st2 : Except Unit Int)
    (hm : env.mkdirOk (expand_path env.home "~/vms") = true)
    (hm2 : env.mkdirOk (vmDirOf env inp.name) = true)
    (hsv : env.saveOk = true) :
    create_vm { env with qemuImgStatus := st1 } cfg inp
        = create_vm { env with qemuImgStatus := st2 } cfg inp
    ∧ ∃ cfg1 effs1, create_vm env cfg inp = Except.ok (cfg1, effs1)
        ∧ (cfg1.vms inp.name).isSome = true ∧ Effect.saveConfig ∈ effs1 := by
  constructor
  · simp only [create_vm, get_vm_folder, save_config]
  · exact ⟨_, _, create_vm_eq env cfg inp hm hm2 hsv, by simp, by simp [createEffs]⟩

theorem create_ignores_img_witness :
    (create_vm { envOK with qemuImgStatus := Except.ok 1 } cfgEmpty inp1
        = create_vm { envOK with qemuImgStatus := Except.error () } cfgEmpty inp1)
    ∧ ∃ cfg1 effs1, create_vm envOK cfgEmpty inp1 = Except.ok (cfg1, effs1)
        ∧ (cfg1.vms "vm1").isSome = true ∧ Effect.saveConfig ∈ effs1 :=
  create_ignores_img envOK cfgEmpty inp1 (Except.ok 1) (Except.error ()) rfl rfl rfl

/-- C7 counterexample: `create_vm` invoked with an empty name (all external
steps fine) succeeds, inserts a record under the empty-string key and
persists the store — refuting the claim that no record is created or
persisted. -/
theorem create_empty_name_cex :
    ∃ cfg1 effs1, create_vm envOK cfgEmpty inpNoName = Except.ok (cfg1, effs1)
      ∧ (cfg1.vms "").isSome = true ∧ Effect.saveConfig ∈ effs1 := by
  refine ⟨_, _, rfl, rfl, ?_⟩
  decide

/-- C7 amended: `create_vm` performs no validation of the name at all;
invoked with an empty name (directories and persist succeeding) it creates
and persists a record stored under the empty-string key. -/
theorem create_empty_name_inserts (env : Env) (cfg : VMConfig) (inp : CreateInput)
    (hname : inp.name = "")
    (hm : env.mkdirOk (expand_path env.home "~/vms") = true)
    (hm2 : env.mkdirOk (vmDirOf env inp.name) = true)
    (hsv : env.saveOk = true) :
    ∃ cfg1 effs1, create_vm env cfg inp = Except.ok (cfg1, effs1)
      ∧ (cfg1.vms "").isSome = true ∧ Effect.saveConfig ∈ effs1 := by
  refine ⟨_, _, create_vm_eq env cfg inp hm hm2 hsv, ?_, by simp [createEffs]⟩
  simp [hname]

theorem create_empty_name_inserts_witness :
    ∃ cfg1 effs1, create_vm envOK cfgEmpty inpNoName = Except.ok (cfg1, effs1)
      ∧ (cfg1.vms "").isSome = true ∧ Effect.saveConfig ∈ effs1 :=
  create_empty_name_inserts envOK cfgEmpty inpNoName rfl rfl rfl rfl
/-- C6 counterexample: with persistence fully functional, `create_vm`
still terminates the whole program when the VM base directory cannot be
created — persistence failures are not the only aborting class. -/
theorem abort_not_only_persist_cex :
    envBadMkdir.saveOk = true
    ∧ create_vm envBadMkdir cfgEmpty inp1
        = Except.error (Abort.mkdirFailed "/home/u/vms") :=
  ⟨rfl, rfl⟩

/-- C6 amended: persistence failures and directory-creation failures are
the classes of failure that terminate the whole program: any abort of
`create_vm` or `delete_vm` is one of the two, caused by the corresponding
environment failure.  (`start_vm` and `stop_vm` are total functions and
cannot abort.) -/
theorem abort_classes (env : Env) (cfg : VMConfig) (inp : CreateInput)
    (name iname : String) (a : Abort)
    (h : create_vm env cfg inp = Except.error a
      ∨ delete_vm env cfg name iname = Except.error a) :
    (a = Abort.persistFailed ∧ env.saveOk = false)
    ∨ (∃ p, a = Abort.mkdirFailed p ∧ env.mkdirOk p = false) := by
  cases h with
  | inl h =>
    by_cases hm : env.mkdirOk (expand_path env.home "~/vms") = true
    · by_cases hm2 : env.mkdirOk (vmDirOf env inp.name) = true
      · by_cases hsv : env.saveOk = true
        · rw [create_vm_eq env cfg inp hm hm2 hsv] at h
          cases h
        · have hsv0 : env.saveOk = false := by simpa using hsv
          have hC : create_vm env cfg inp = Except.error Abort.persistFailed := by
            unfold vmDirOf at hm2
            simp [create_vm, get_vm_folder, save_config, hm, hm2, hsv0]
          rw [hC] at h
          injection h with h2
          exact Or.inl ⟨h2.symm, hsv0⟩
      · have hm20 : env.mkdirOk (vmDirOf env inp.name) = false := by simpa using hm2
        have hC : create_vm env cfg inp
            = Except.error (Abort.mkdirFailed (vmDirOf env inp.name)) := by
          unfold vmDirOf at hm20
          simp [create_vm, get_vm_folder, vmDirOf, hm, hm20]
        rw [hC] at h
        injection h with h2
        exact Or.inr ⟨vmDirOf env inp.name, h2.symm, hm20⟩
    · have hm0 : env.mkdirOk (expand_path env.home "~/vms") = false := by simpa using hm
      have hC : create_vm env cfg inp
          = Except.error (Abort.mkdirFailed (expand_path env.home "~/vms")) := by
        simp [create_vm, get_vm_folder, hm0]
      rw [hC] at h
      injection h with h2
      exact Or.inr ⟨expand_path env.home "~/vms", h2.symm, hm0⟩
  | inr h =>
    cases hv : cfg.vms name with
    | none => simp [delete_vm, hv] at h
    | some vm =>
      by_cases hm : env.mkdirOk (expand_path env.home "~/vms") = true
      · by_cases hsv : env.saveOk = true
        · rw [delete_vm_eq env cfg name iname vm hv hm hsv] at h
          cases h
        · have hsv0 : env.saveOk = false := by simpa using hsv
          have hC : delete_vm env cfg name iname = Except.error Abort.persistFailed := by
            simp [delete_vm, get_vm_folder, save_config, hv, hm, hsv0]
          rw [hC] at h
          injection h with h2
          exact Or.inl ⟨h2.symm, hsv0⟩
      · have hm0 : env.mkdirOk (expand_path env.home "~/vms") = false := by simpa using hm
        have hC : delete_vm env cfg name iname
            = Except.error (Abort.mkdirFailed (expand_path env.home "~/vms")) := by
          simp [delete_vm, get_vm_folder, hv, hm0]
        rw [hC] at h
        injection h with h2
        exact Or.inr ⟨expand_path env.home "~/vms", h2.symm, hm0⟩

theorem abort_classes_witness :
    (Abort.persistFailed = Abort.persistFailed ∧ envBadSave.saveOk = false)
    ∨ (∃ p, Abort.persistFailed = Abort.mkdirFailed p ∧ envBadSave.mkdirOk p = false) :=
  abort_classes envBadSave cfgEmpty inp1 "x" "x" Abort.persistFailed (Or.inl rfl)

/-- C3: Delete after Create on a name removes the record from the store
(a subsequent get returns none), removes the disk file at the record's
diskPath if present, removes the VM subdirectory if present, and persists
the store.  Removal failures are reported as warnings and do not prevent
the record removal or the persist: all conclusions below hold for every
value of `removeFileOk` / `removeDirOk`. -/
theorem delete_after_create (env : Env) (cfg : VMConfig) (inp : CreateInput)
    (iname : String)
    (hm : env.mkdirOk (expand_path env.home "~/vms") = true)
    (hm2 : env.mkdirOk (vmDirOf env inp.name) = true)
    (hsv : env.saveOk = true) :
    ∃ cfg1 effs1 cfg2 effs2 inner,
      create_vm env cfg inp = Except.ok (cfg1, effs1)
      ∧ delete_vm env cfg1 inp.name iname
          = Except.ok (DeleteResult.deleted inner, cfg2, effs2)
      ∧ cfg2.vms inp.name = none
      ∧ Effect.saveConfig ∈ effs2
      ∧ (env.fileExists (expand_path env.home (mkVM env inp).disk) = true →
          Effect.removeFile (expand_path env.home (mkVM env inp).disk) ∈ effs2)
      ∧ (env.fileExists (expand_path env.home (mkVM env inp).disk) = true →
          env.removeFileOk (expand_path env.home (mkVM env inp).disk) = false →
          Effect.warn "Failed to delete disk file" ∈ effs2)
      ∧ (env.dirExists (vmDirOf env inp.name) = true →
          Effect.removeDirAll (vmDirOf env inp.name) ∈ effs2)
      ∧ (env.dirExists (vmDirOf env inp.name) = true →
          env.removeDirOk (vmDirOf env inp.name) = false →
          Effect.warn "Failed to delete VM folder" ∈ effs2) := by
  have hvm : (⟨fun k => if k = inp.name then some (mkVM env inp) else cfg.vms k⟩
      : VMConfig).vms inp.name = some (mkVM env inp) := by simp
  refine ⟨_, _, _, _, _, create_vm_eq env cfg inp hm hm2 hsv,
    delete_vm_eq env _ inp.name iname (mkVM env inp) hvm hm hsv,
    ?_, ?_, ?_, ?_, ?_, ?_⟩
  · simp [removedCfg]
  · simp [deleteEffs]
  · intro hf
    simp [deleteEffs, hf]
  · intro hf hof
    simp [deleteEffs, hf, hof]
  · intro hd
    simp [deleteEffs, hd]
  · intro hd hod
    simp [deleteEffs, hd, hod]

theorem delete_after_create_witness :
    ∃ cfg1 effs1 cfg2 effs2 inner,
      create_vm envOK cfgEmpty inp1 = Except.ok (cfg1, effs1)
      ∧ delete_vm envOK cfg1 "vm1" "vm1"
          = Except.ok (DeleteResult.deleted inner, cfg2, effs2)
      ∧ cfg2.vms "vm1" = none
      ∧ Effect.saveConfig ∈ effs2
      ∧ (envOK.fileExists (expand_path envOK.home (mkVM envOK inp1).disk) = true →
          Effect.removeFile (expand_path envOK.home (mkVM envOK inp1).disk) ∈ effs2)
      ∧ (envOK.fileExists (expand_path envOK.home (mkVM envOK inp1).disk) = true →
          envOK.removeFileOk (expand_path envOK.home (mkVM envOK inp1).disk) = false →
          Effect.warn "Failed to delete disk file" ∈ effs2)
      ∧ (envOK.dirExists (vmDirOf envOK "vm1") = true →
          Effect.removeDirAll (vmDirOf envOK "vm1") ∈ effs2)
      ∧ (envOK.dirExists (vmDirOf envOK "vm1") = true →
          envOK.removeDirOk (vmDirOf envOK "vm1") = false →
          Effect.warn "Failed to delete VM folder" ∈ effs2) :=
  delete_after_create envOK cfgEmpty inp1 "vm1" rfl rfl rfl

/-- C10: during `delete_vm` on an existing name the record is removed from
the in-memory store before the stop attempt; the "matching process appears
alive" test passes for every captured pgrep output `out` — the output is
never inspected, spawn success suffices; and the inner `stop_vm`, given the
same name at its re-prompt, observes the name as absent from the store and
reports NotFound with no effect (no signal sent to any matching process). -/
theorem delete_removes_record_before_stop (env : Env) (cfg : VMConfig)
    (name : String) (vm : VMInfo) (out : List String)
    (hvm : cfg.vms name = some vm)
    (hpg : env.pgrepOutput = Except.ok out)
    (hm : env.mkdirOk (expand_path env.home "~/vms") = true)
    (hsv : env.saveOk = true) :
    (removedCfg cfg name).vms name = none
    ∧ stop_vm env (removedCfg cfg name) name = (StopResult.notFound, [])
    ∧ ∃ effs, delete_vm env cfg name name
        = Except.ok (DeleteResult.deleted (some StopResult.notFound),
            removedCfg cfg name, effs) := by
  have hnone : (removedCfg cfg name).vms name = none := by simp [removedCfg]
  have hstop : stop_vm env (removedCfg cfg name) name = (StopResult.notFound, []) := by
    simp [stop_vm, hnone]
  refine ⟨hnone, hstop, deleteEffs env (removedCfg cfg name) vm name name, ?_⟩
  rw [delete_vm_eq env cfg name name vm hvm hm hsv]
  simp [deleteInnerRes, hpg, hstop]

theorem delete_removes_record_before_stop_witness :
    (removedCfg cfgVm1 "vm1").vms "vm1" = none
    ∧ stop_vm envAlive (removedCfg cfgVm1 "vm1") "vm1" = (StopResult.notFound, [])
    ∧ ∃ effs, delete_vm envAlive cfgVm1 "vm1" "vm1"
        = Except.ok (DeleteResult.deleted (some StopResult.notFound),
            removedCfg cfgVm1 "vm1", effs) :=
  delete_removes_record_before_stop envAlive cfgVm1 "vm1" vmRec1 ["1234"]
    rfl rfl rfl rfl

/-- C1 (code bug evaluated at the failing input): `vm1` is defined, pgrep
spawns and reports a live matching PID 1234, and the user re-enters `vm1`
at the inner stop prompt.  `delete_vm` removes the record from the store
first, so the stop it then invokes "before deletion" reports NotFound and
the whole deletion emits no termination signal at all: the live process is
not stopped, contradicting "Delete first ensures no live process remains
attached to that name". -/
theorem delete_does_not_stop_live_process :
    envAlive.pgrepOutput = Except.ok ["1234"]
    ∧ delete_vm envAlive cfgVm1 "vm1" "vm1"
        = Except.ok (DeleteResult.deleted (some StopResult.notFound),
            ⟨fun k => if k = "vm1" then none else cfgVm1.vms k⟩,
            [Effect.runPgrep "qemu-system-x86_64 -name vm1",
             Effect.createDirAll "/home/u/vms", Effect.saveConfig])
    ∧ ([Effect.runPgrep "qemu-system-x86_64 -name vm1",
        Effect.createDirAll "/home/u/vms", Effect.saveConfig].all
          (fun e => !sendsKillSignal e)) = true :=
  ⟨rfl, rfl, rfl⟩
